import Mathlib

/-!
Formal model of the `webhooks` package of the sdk-wrapper-go repository.

The package offers a `Handler` holding a shared secret, with:
* `Verify` — HMAC-SHA256 signature verification with a constant-time compare;
* `Parse` — JSON payload normalisation into a `Payload` record;
* `VerifyAndParse` — the combined convenience path;
* response builders (`SuccessResponse`, `ErrorResponse`, …).

Go strings are byte sequences, so payloads, signatures and string fields are
modelled as lists of naturals below 256.  JSON numbers (decoded by Go into
`float64`) are modelled exactly as rationals; Go's `int(v)` conversion is
truncation toward zero.
-/

namespace Webhooks

/-- Bytes: each entry a natural number below 256. -/
abbrev Bytes := List Nat

/-- ASCII bytes of a Lean string literal (for concrete test vectors). -/
def ascii (s : String) : Bytes := s.data.map Char.toNat

/-! ### SHA-256 (the `crypto/sha256` algorithm, FIPS 180-4) -/

/-- Truncation to a 32-bit word. -/
def w32 (x : Nat) : Nat := x % 2 ^ 32

/-- Right rotation of a 32-bit word. -/
def rotr (n x : Nat) : Nat := w32 ((x >>> n) ||| (x <<< (32 - n)))

def ch (e f g : Nat) : Nat := (e &&& f) ^^^ ((e ^^^ 0xffffffff) &&& g)

def maj (a b c : Nat) : Nat := (a &&& b) ^^^ (a &&& c) ^^^ (b &&& c)

def bigS0 (a : Nat) : Nat := rotr 2 a ^^^ rotr 13 a ^^^ rotr 22 a

def bigS1 (e : Nat) : Nat := rotr 6 e ^^^ rotr 11 e ^^^ rotr 25 e

def smallS0 (x : Nat) : Nat := rotr 7 x ^^^ rotr 18 x ^^^ (x >>> 3)

def smallS1 (x : Nat) : Nat := rotr 17 x ^^^ rotr 19 x ^^^ (x >>> 10)

/-- The 64 SHA-256 round constants. -/
def sha256K : List Nat :=
  [0x428A2F98, 0x71374491, 0xB5C0FBCF, 0xE9B5DBA5,
   0x3956C25B, 0x59F111F1, 0x923F82A4, 0xAB1C5ED5,
   0xD807AA98, 0x12835B01, 0x243185BE, 0x550C7DC3,
   0x72BE5D74, 0x80DEB1FE, 0x9BDC06A7, 0xC19BF174,
   0xE49B69C1, 0xEFBE4786, 0x0FC19DC6, 0x240CA1CC,
   0x2DE92C6F, 0x4A7484AA, 0x5CB0A9DC, 0x76F988DA,
   0x983E5152, 0xA831C66D, 0xB00327C8, 0xBF597FC7,
   0xC6E00BF3, 0xD5A79147, 0x06CA6351, 0x14292967,
   0x27B70A85, 0x2E1B2138, 0x4D2C6DFC, 0x53380D13,
   0x650A7354, 0x766A0ABB, 0x81C2C92E, 0x92722C85,
   0xA2BFE8A1, 0xA81A664B, 0xC24B8B70, 0xC76C51A3,
   0xD192E819, 0xD6990624, 0xF40E3585, 0x106AA070,
   0x19A4C116, 0x1E376C08, 0x2748774C, 0x34B0BCB5,
   0x391C0CB3, 0x4ED8AA4A, 0x5B9CCA4F, 0x682E6FF3,
   0x748F82EE, 0x78A5636F, 0x84C87814, 0x8CC70208,
   0x90BEFFFA, 0xA4506CEB, 0xBEF9A3F7, 0xC67178F2]

/-- The SHA-256 initial hash state. -/
def sha256H0 : List Nat :=
  [0x6A09E667, 0xBB67AE85, 0x3C6EF372, 0xA54FF53A,
   0x510E527F, 0x9B05688C, 0x1F83D9AB, 0x5BE0CD19]

/-- SHA-256 padding: append 0x80, zero bytes, then the 64-bit big-endian
    bit length, reaching a multiple of 64 bytes. -/
def padMessage (msg : Bytes) : Bytes :=
  let len := msg.length
  let zeros := (119 - len % 64) % 64
  let bitLen := len * 8
  msg ++ 0x80 :: List.replicate zeros 0 ++
    [(bitLen >>> 56) % 256, (bitLen >>> 48) % 256, (bitLen >>> 40) % 256,
     (bitLen >>> 32) % 256, (bitLen >>> 24) % 256, (bitLen >>> 16) % 256,
     (bitLen >>> 8) % 256, bitLen % 256]

/-- Split a byte list into 64-byte blocks (structural recursion on a fuel
    bounded by the list length, so that the definition computes). -/
def toBlocksAux : Nat → Bytes → List Bytes
  | 0, _ => []
  | _, [] => []
  | fuel + 1, b :: rest => (b :: rest).take 64 :: toBlocksAux fuel ((b :: rest).drop 64)

/-- Split a byte list into 64-byte blocks. -/
def toBlocks (l : Bytes) : List Bytes := toBlocksAux l.length l

/-- Big-endian 32-bit words of a byte list. -/
def toWordsBE : Bytes → List Nat
  | b0 :: b1 :: b2 :: b3 :: rest =>
      ((b0 <<< 24) ||| (b1 <<< 16) ||| (b2 <<< 8) ||| b3) :: toWordsBE rest
  | _ => []

/-- Message-schedule extension of the 16 block words to 64 words. -/
def schedule (ws : List Nat) : List Nat :=
  (List.range 48).foldl
    (fun acc i =>
      acc ++ [w32 (smallS1 (acc.getD (i + 14) 0) + acc.getD (i + 9) 0 +
                   smallS0 (acc.getD (i + 1) 0) + acc.getD i 0)])
    ws

/-- One SHA-256 compression round over the running hash state. -/
def compress (hs ws : List Nat) : List Nat :=
  let w := schedule ws
  let step := fun (s : Nat × Nat × Nat × Nat × Nat × Nat × Nat × Nat) (i : Nat) =>
    let (a, b, c, d, e, f, g, h) := s
    let t1 := w32 (h + bigS1 e + ch e f g + sha256K.getD i 0 + w.getD i 0)
    let t2 := w32 (bigS0 a + maj a b c)
    (w32 (t1 + t2), a, b, c, w32 (d + t1), e, f, g)
  let init := (hs.getD 0 0, hs.getD 1 0, hs.getD 2 0, hs.getD 3 0,
               hs.getD 4 0, hs.getD 5 0, hs.getD 6 0, hs.getD 7 0)
  let fin := (List.range 64).foldl step init
  [w32 (hs.getD 0 0 + fin.1), w32 (hs.getD 1 0 + fin.2.1),
   w32 (hs.getD 2 0 + fin.2.2.1), w32 (hs.getD 3 0 + fin.2.2.2.1),
   w32 (hs.getD 4 0 + fin.2.2.2.2.1), w32 (hs.getD 5 0 + fin.2.2.2.2.2.1),
   w32 (hs.getD 6 0 + fin.2.2.2.2.2.2.1), w32 (hs.getD 7 0 + fin.2.2.2.2.2.2.2)]

/-- SHA-256 digest (32 bytes) of a byte message. -/
def sha256 (msg : Bytes) : Bytes :=
  let finalState :=
    (toBlocks (padMessage msg)).foldl (fun hs blk => compress hs (toWordsBE blk)) sha256H0
  finalState.foldr
    (fun wd acc => (wd >>> 24) % 256 :: (wd >>> 16) % 256 :: (wd >>> 8) % 256 :: wd % 256 :: acc)
    []

/-! ### HMAC (the `crypto/hmac` algorithm, RFC 2104), hex, constant-time compare -/

/-- HMAC-SHA256 with block size 64. -/
def hmacSha256 (key msg : Bytes) : Bytes :=
  let k0 := if 64 < key.length then sha256 key else key
  let k := k0 ++ List.replicate (64 - k0.length) 0
  let ipadKey := k.map (fun b => b ^^^ 0x36)
  let opadKey := k.map (fun b => b ^^^ 0x5c)
  sha256 (opadKey ++ sha256 (ipadKey ++ msg))

/-- A hexadecimal digit as its lowercase ASCII byte (`encoding/hex` alphabet). -/
def hexDigit (d : Nat) : Nat := if d < 10 then 48 + d else 87 + d

/-- Lowercase hex encoding of a byte list, as ASCII bytes
    (`hex.EncodeToString`). -/
def hexEncode (bs : Bytes) : Bytes :=
  bs.foldr (fun b acc => hexDigit (b / 16 % 16) :: hexDigit (b % 16) :: acc) []

/-- `crypto/subtle.ConstantTimeCompare`: 1 when the two byte slices have the
    same length and contents, 0 otherwise; the body ORs together the XORs of
    all byte pairs instead of exiting at the first difference. -/
def constantTimeCompare (x y : Bytes) : Nat :=
  if x.length = y.length then
    if (List.zipWith (fun a b => a ^^^ b) x y).foldl (fun a b => a ||| b) 0 = 0
    then 1 else 0
  else 0

/-- `crypto/hmac.Equal`. -/
def hmacEqual (x y : Bytes) : Bool := constantTimeCompare x y == 1

/-! ### Handler and Verify -/

/-- The webhook handler: owns the shared secret. -/
structure Handler where
  secret : Bytes

/-- `NewHandler`. -/
def NewHandler (secret : Bytes) : Handler := ⟨secret⟩

/-- `Handler.Verify`: hex-encode HMAC-SHA256 of the payload keyed by the
    secret and compare with the signature in constant time. -/
def Handler.Verify (h : Handler) (payload signature : Bytes) : Bool :=
  let expected := hexEncode (hmacSha256 h.secret payload)
  hmacEqual expected signature

/-! ### JSON values (`encoding/json` decoding into `map[string]interface{}`)

Go decodes every JSON number into a `float64`; numbers are modelled exactly
as rationals.  JSON strings decode to Go strings, i.e. byte sequences. -/

inductive JValue where
  | null : JValue
  | bool : Bool → JValue
  | num : ℚ → JValue
  | str : Bytes → JValue
  | arr : List JValue → JValue
  | obj : List (Bytes × JValue) → JValue

/-- The object representation: an association list with Go-map update
    semantics (assignment replaces an existing binding). -/
abbrev JObj := List (Bytes × JValue)

/-- Go map assignment `m[k] = v`. -/
def upsert : JObj → Bytes → JValue → JObj
  | [], k, v => [(k, v)]
  | (k', v') :: rest, k, v =>
      if k' = k then (k, v) :: rest else (k', v') :: upsert rest k v

/-- Go map lookup `m[k]`. -/
def jlookup (m : JObj) (k : Bytes) : Option JValue :=
  (m.find? (fun p => p.1 = k)).map (fun p => p.2)

/-! ### JSON parser (`encoding/json` syntax) -/

def isWS (c : Nat) : Bool := c == 0x20 || c == 0x09 || c == 0x0A || c == 0x0D

def skipWS : Bytes → Bytes
  | [] => []
  | c :: rest => if isWS c then skipWS rest else c :: rest

def isDigit (c : Nat) : Bool := 48 ≤ c && c ≤ 57

/-- The hexadecimal value of an ASCII digit, both cases. -/
def hexVal (c : Nat) : Option Nat :=
  if 48 ≤ c ∧ c ≤ 57 then some (c - 48)
  else if 97 ≤ c ∧ c ≤ 102 then some (c - 87)
  else if 65 ≤ c ∧ c ≤ 70 then some (c - 55)
  else none

/-- Leading decimal digits of the input, as digit values, with the rest. -/
def takeDigits : Bytes → List Nat × Bytes
  | [] => ([], [])
  | c :: rest =>
      if isDigit c then
        let (ds, r) := takeDigits rest
        ((c - 48) :: ds, r)
      else ([], c :: rest)

def digitsVal (ds : List Nat) : Nat := ds.foldl (fun a d => a * 10 + d) 0

/-- UTF-8 bytes of a Unicode code point. -/
def utf8Encode (c : Nat) : Bytes :=
  if c < 0x80 then [c]
  else if c < 0x800 then
    [0xC0 ||| (c >>> 6), 0x80 ||| (c &&& 0x3F)]
  else if c < 0x10000 then
    [0xE0 ||| (c >>> 12), 0x80 ||| ((c >>> 6) &&& 0x3F), 0x80 ||| (c &&& 0x3F)]
  else
    [0xF0 ||| (c >>> 18), 0x80 ||| ((c >>> 12) &&& 0x3F),
     0x80 ||| ((c >>> 6) &&& 0x3F), 0x80 ||| (c &&& 0x3F)]

/-- UTF-8 bytes of the Unicode replacement character U+FFFD, produced by
    Go's decoder for unpaired surrogate escapes. -/
def replacementBytes : Bytes := [0xEF, 0xBF, 0xBD]

/-- Four hex digits, as in a `\uXXXX` escape. -/
def parseHex4 : Bytes → Option (Nat × Bytes)
  | c0 :: c1 :: c2 :: c3 :: rest => do
      let d0 ← hexVal c0
      let d1 ← hexVal c1
      let d2 ← hexVal c2
      let d3 ← hexVal c3
      pure (((d0 * 16 + d1) * 16 + d2) * 16 + d3, rest)
  | _ => none

/-- Body of a JSON string after the opening quote: content bytes and the
    input after the closing quote.  Escapes follow `encoding/json`: the named
    single-character escapes, `\uXXXX` with surrogate pairing, unpaired
    surrogates replaced by U+FFFD; raw control bytes below 0x20 rejected. -/
def parseStringBody : Nat → Bytes → Option (Bytes × Bytes)
  | 0, _ => none
  | _, [] => none
  | fuel + 1, c :: rest =>
      if c = 0x22 then some ([], rest)
      else if c = 0x5C then
        match rest with
        | [] => none
        | e :: rest' =>
            if e = 0x22 ∨ e = 0x5C ∨ e = 0x2F then do
              let (s, r) ← parseStringBody fuel rest'
              pure (e :: s, r)
            else if e = 0x62 then do
              let (s, r) ← parseStringBody fuel rest'
              pure (0x08 :: s, r)
            else if e = 0x66 then do
              let (s, r) ← parseStringBody fuel rest'
              pure (0x0C :: s, r)
            else if e = 0x6E then do
              let (s, r) ← parseStringBody fuel rest'
              pure (0x0A :: s, r)
            else if e = 0x72 then do
              let (s, r) ← parseStringBody fuel rest'
              pure (0x0D :: s, r)
            else if e = 0x74 then do
              let (s, r) ← parseStringBody fuel rest'
              pure (0x09 :: s, r)
            else if e = 0x75 then do
              let (cp, r1) ← parseHex4 rest'
              if 0xD800 ≤ cp ∧ cp < 0xDC00 then
                match r1 with
                | 0x5C :: 0x75 :: r2 =>
                    match parseHex4 r2 with
                    | some (lo, r3) =>
                        if 0xDC00 ≤ lo ∧ lo < 0xE000 then do
                          let combined := 0x10000 + (cp - 0xD800) * 0x400 + (lo - 0xDC00)
                          let (s, r) ← parseStringBody fuel r3
                          pure (utf8Encode combined ++ s, r)
                        else do
                          let (s, r) ← parseStringBody fuel r1
                          pure (replacementBytes ++ s, r)
                    | none => do
                        let (s, r) ← parseStringBody fuel r1
                        pure (replacementBytes ++ s, r)
                | _ => do
                    let (s, r) ← parseStringBody fuel r1
                    pure (replacementBytes ++ s, r)
              else if 0xDC00 ≤ cp ∧ cp < 0xE000 then do
                let (s, r) ← parseStringBody fuel r1
                pure (replacementBytes ++ s, r)
              else do
                let (s, r) ← parseStringBody fuel r1
                pure (utf8Encode cp ++ s, r)
            else none
      else if c < 0x20 then none
      else do
        let (s, r) ← parseStringBody fuel rest
        pure (c :: s, r)

/-- Fraction part: digits after a `.`, as (value scaled into [0,1), rest);
    yields 0 and the unchanged input when no `.` follows. -/
def parseFrac : Bytes → Option (ℚ × Bytes)
  | 0x2E :: rest =>
      let (ds, r) := takeDigits rest
      if ds = [] then none
      else some ((digitsVal ds : ℚ) / (10 : ℚ) ^ ds.length, r)
  | l => some (0, l)

/-- Exponent part: `e`/`E`, optional sign, digits; 0 when absent. -/
def parseExp : Bytes → Option (Int × Bytes)
  | c :: rest =>
      if c = 0x65 ∨ c = 0x45 then
        let (sgn, r0) : Int × Bytes :=
          match rest with
          | 0x2B :: r => (1, r)
          | 0x2D :: r => (-1, r)
          | r => (1, r)
        let (ds, r) := takeDigits r0
        if ds = [] then none else some (sgn * (digitsVal ds : Int), r)
      else some (0, c :: rest)
  | [] => some (0, [])

/-- Scale a rational by a power of ten. -/
def scale10 (q : ℚ) (e : Int) : ℚ :=
  if 0 ≤ e then q * (10 : ℚ) ^ e.toNat else q / (10 : ℚ) ^ (-e).toNat

/-- A JSON number per the `encoding/json` grammar:
    `-? (0 | [1-9][0-9]*) frac? exp?`. -/
def parseNumber (l : Bytes) : Option (ℚ × Bytes) :=
  let (neg, l1) : Bool × Bytes :=
    match l with
    | 0x2D :: r => (true, r)
    | r => (false, r)
  let (ids, l2) := takeDigits l1
  match ids with
  | [] => none
  | d :: ds =>
      if d = 0 ∧ ds ≠ [] then none
      else do
        let (fq, l3) ← parseFrac l2
        let (e, l4) ← parseExp l3
        let mag := scale10 ((digitsVal ids : ℚ) + fq) e
        pure (if neg then -mag else mag, l4)

/-- Parser modes: a single value, the items of an array, or the fields of an
    object (accumulator plus whether the first element is still expected). -/
inductive PMode where
  | value : PMode
  | arrItems : List JValue → Bool → PMode
  | objFields : JObj → Bool → PMode

/-- The recursive-descent JSON parser, structural on a fuel argument so that
    the definition computes.  Returns the parsed value and the rest of the
    input. -/
def parseCore : Nat → PMode → Bytes → Option (JValue × Bytes)
  | 0, _, _ => none
  | fuel + 1, .value, l =>
      match skipWS l with
      | [] => none
      | c :: rest =>
          if c = 0x22 then do
            let (s, r) ← parseStringBody (rest.length + 1) rest
            pure (.str s, r)
          else if c = 0x74 then
            match rest with
            | 0x72 :: 0x75 :: 0x65 :: r => some (.bool true, r)
            | _ => none
          else if c = 0x66 then
            match rest with
            | 0x61 :: 0x6C :: 0x73 :: 0x65 :: r => some (.bool false, r)
            | _ => none
          else if c = 0x6E then
            match rest with
            | 0x75 :: 0x6C :: 0x6C :: r => some (.null, r)
            | _ => none
          else if c = 0x5B then parseCore fuel (.arrItems [] true) rest
          else if c = 0x7B then parseCore fuel (.objFields [] true) rest
          else do
            let (q, r) ← parseNumber (c :: rest)
            pure (.num q, r)
  | fuel + 1, .arrItems acc first, l =>
      match skipWS l with
      | [] => none
      | c :: rest =>
          if c = 0x5D then some (.arr acc.reverse, rest)
          else if first then do
            let (v, r) ← parseCore fuel .value (c :: rest)
            parseCore fuel (.arrItems (v :: acc) false) r
          else if c = 0x2C then do
            let (v, r) ← parseCore fuel .value rest
            parseCore fuel (.arrItems (v :: acc) false) r
          else none
  | fuel + 1, .objFields acc first, l =>
      match skipWS l with
      | [] => none
      | c :: rest =>
          if c = 0x7D then some (.obj acc, rest)
          else
            let afterComma : Option Bytes :=
              if first then some (c :: rest)
              else if c = 0x2C then some rest
              else none
            match afterComma with
            | none => none
            | some l1 =>
                match skipWS l1 with
                | 0x22 :: r1 => do
                    let (key, r2) ← parseStringBody (r1.length + 1) r1
                    match skipWS r2 with
                    | 0x3A :: r3 => do
                        let (v, r4) ← parseCore fuel .value r3
                        parseCore fuel (.objFields (upsert acc key v) false) r4
                    | _ => none
                | _ => none

/-- Decode a complete JSON document: one value, then only whitespace. -/
def decodeJSON (bs : Bytes) : Option JValue :=
  match parseCore (2 * bs.length + 4) .value bs with
  | some (v, rest) => if skipWS rest = [] then some v else none
  | none => none

/-! ### The parsed payload (`Payload` struct) -/

/-- The normalized webhook payload.  String fields are Go strings (byte
    lists, empty when absent); pointer fields are options; `raw` retains the
    decoded key/value map. -/
structure Payload where
  type : Bytes
  playerID : Bytes
  currency : Bytes
  timestamp : Bytes
  gameID : Option Int
  gameType : Bytes
  transactionID : Option Int
  amount : Option Int
  sessionID : Bytes
  roundID : Bytes
  rewardType : Bytes
  rewardTitle : Bytes
  isFreespin : Bool
  freespinID : Bytes
  freespinTotal : Option Int
  freespinsRemaining : Option Int
  freespinRoundNumber : Option Int
  freespinTotalWinnings : Option ℚ
  raw : JObj

/-- Webhook type constants. -/
def TypeAuthenticate : Bytes := ascii "authenticate"

def TypeBalanceCheck : Bytes := ascii "balance_check"

def TypeBet : Bytes := ascii "bet"

def TypeWin : Bytes := ascii "win"

def TypeRollback : Bytes := ascii "rollback"

def TypeReward : Bytes := ascii "reward"

def Payload.IsBet (p : Payload) : Bool := p.type = TypeBet

def Payload.IsWin (p : Payload) : Bool := p.type = TypeWin

def Payload.IsRollback (p : Payload) : Bool := p.type = TypeRollback

def Payload.IsReward (p : Payload) : Bool := p.type = TypeReward

def Payload.IsAuthenticate (p : Payload) : Bool := p.type = TypeAuthenticate

def Payload.IsBalanceCheck (p : Payload) : Bool := p.type = TypeBalanceCheck

/-- `GetAmountInDollars`: `float64(*p.Amount) / 100`, or nil. -/
def Payload.GetAmountInDollars (p : Payload) : Option ℚ :=
  p.amount.map (fun a => (a : ℚ) / 100)

/-- `Payload.Get`: read a value from the raw map (nil for a missing key). -/
def Payload.Get (p : Payload) (key : Bytes) : Option JValue :=
  jlookup p.raw key

/-- Go's `int(v)` conversion of a `float64`: truncation toward zero. -/
def goInt (q : ℚ) : Int := if 0 ≤ q then ⌊q⌋ else ⌈q⌉

/-- The `getString` helper: the value at the key when it is a string, the
    empty string otherwise (missing key or non-string value). -/
def getString (m : JObj) (key : Bytes) : Bytes :=
  match jlookup m key with
  | some (.str s) => s
  | _ => []

/-- The numeric value at a key, when the stored value is a JSON number —
    the Go type assertion `raw[key].(float64)`. -/
def getNum (m : JObj) (key : Bytes) : Option ℚ :=
  match jlookup m key with
  | some (.num q) => some q
  | _ => none

/-- The boolean at a key — the Go type assertion `raw[key].(bool)`. -/
def getBool (m : JObj) (key : Bytes) : Option Bool :=
  match jlookup m key with
  | some (.bool b) => some b
  | _ => none

/-- The field-population body of `Handler.Parse`, acting on the decoded
    key/value map, mirroring the Go statement sequence. -/
def buildPayload (raw : JObj) : Payload :=
  { type := getString raw (ascii "type")
    playerID := getString raw (ascii "player_id")
    currency := getString raw (ascii "currency")
    timestamp := getString raw (ascii "timestamp")
    gameType := getString raw (ascii "game_type")
    sessionID := getString raw (ascii "session_id")
    roundID := getString raw (ascii "round_id")
    rewardType := getString raw (ascii "reward_type")
    rewardTitle := getString raw (ascii "reward_title")
    gameID := (getNum raw (ascii "game_id")).map goInt
    transactionID := (getNum raw (ascii "transaction_id")).map goInt
    amount := (getNum raw (ascii "amount")).map goInt
    isFreespin :=
      match getBool raw (ascii "is_freespin_round") with
      | some v => v
      | none =>
          match getBool raw (ascii "is_freespin") with
          | some v => v
          | none => false
    freespinID :=
      if getString raw (ascii "freespin_id") ≠ [] then
        getString raw (ascii "freespin_id")
      else if getString raw (ascii "bonus_id") ≠ [] then
        getString raw (ascii "bonus_id")
      else []
    freespinTotal := (getNum raw (ascii "freespin_total")).map goInt
    freespinsRemaining :=
      match getNum raw (ascii "freespins_remaining") with
      | some v => some (goInt v)
      | none => (getNum raw (ascii "freespin_left")).map goInt
    freespinRoundNumber := (getNum raw (ascii "freespin_round_number")).map goInt
    freespinTotalWinnings := getNum raw (ascii "freespin_total_winnings")
    raw := raw }

/-- The two error values the handler produces: `"invalid JSON payload"`
    from `Parse` and `"invalid webhook signature"` from `VerifyAndParse`. -/
inductive WebhookError where
  | malformedPayload : WebhookError
  | invalidSignature : WebhookError
deriving DecidableEq

/-- `Handler.Parse`: `json.Unmarshal` into a `map[string]interface{}` —
    which succeeds on a JSON object and on `null` (nil map) and fails on
    anything else — then populate the `Payload` fields. -/
def Handler.Parse (_h : Handler) (payload : Bytes) : Except WebhookError Payload :=
  match decodeJSON payload with
  | some (.obj raw) => .ok (buildPayload raw)
  | some .null => .ok (buildPayload [])
  | _ => .error .malformedPayload

/-- `Handler.VerifyAndParse`: verify, then parse. -/
def Handler.VerifyAndParse (h : Handler) (payload signature : Bytes) :
    Except WebhookError Payload :=
  if h.Verify payload signature then h.Parse payload
  else .error .invalidSignature

/-! ### Response builders -/

/-- `SuccessResponse`: status/balance base map, then the extra entries
    assigned over it. -/
def Handler.SuccessResponse (_h : Handler) (balance : ℚ) (extra : JObj) : JObj :=
  extra.foldl (fun resp kv => upsert resp kv.1 kv.2)
    [(ascii "status", .str (ascii "success")),
     (ascii "balance", .num (goInt (balance * 100) : ℚ))]

/-- `ErrorResponse`. -/
def Handler.ErrorResponse (_h : Handler) (code message : Bytes) : JObj :=
  [(ascii "status", .str (ascii "error")),
   (ascii "error_code", .str code),
   (ascii "error_message", .str message)]

/-- `PlayerNotFoundResponse`. -/
def Handler.PlayerNotFoundResponse (h : Handler) : JObj :=
  h.ErrorResponse (ascii "PLAYER_NOT_FOUND") (ascii "Player not found")

/-- `InsufficientFundsResponse`. -/
def Handler.InsufficientFundsResponse (h : Handler) (balance : ℚ) : JObj :=
  upsert (h.ErrorResponse (ascii "INSUFFICIENT_FUNDS") (ascii "Insufficient funds"))
    (ascii "balance") (.num (goInt (balance * 100) : ℚ))

/-- `AlreadyProcessedResponse`. -/
def Handler.AlreadyProcessedResponse (h : Handler) (balance : ℚ) : JObj :=
  h.SuccessResponse balance [(ascii "already_processed", .bool true)]

/-- Rounding to the nearest integer, as the spec's `round(balanceMajorUnits*100)`
    reads (modelled from the spec's words, for comparison with `goInt`). -/
def specRound (q : ℚ) : Int := round q

/-! ### Lemmas: the constant-time compare decides equality -/

theorem lor_eq_zero_iff (a b : Nat) : a ||| b = 0 ↔ a = 0 ∧ b = 0 := by
  constructor
  · intro hab
    constructor <;> refine Nat.eq_of_testBit_eq fun i => ?_ <;>
    · have hbit := congrArg (fun n => Nat.testBit n i) hab
      simp only [Nat.testBit_lor, Nat.zero_testBit, Bool.or_eq_false_iff] at hbit
      simp [hbit.1, hbit.2]
  · rintro ⟨rfl, rfl⟩
    rfl

theorem foldl_lor_eq_zero (l : List Nat) (a : Nat) :
    l.foldl (fun x y => x ||| y) a = 0 ↔ a = 0 ∧ ∀ x ∈ l, x = 0 := by
  induction l generalizing a with
  | nil => simp
  | cons b t ih =>
      simp only [List.foldl_cons, ih, lor_eq_zero_iff, List.mem_cons]
      constructor
      · rintro ⟨⟨ha, hb⟩, ht⟩
        exact ⟨ha, fun x hx => hx.elim (fun hxb => hxb ▸ hb) (ht x)⟩
      · rintro ⟨ha, hall⟩
        exact ⟨⟨ha, hall b (Or.inl rfl)⟩, fun x hx => hall x (Or.inr hx)⟩

theorem eq_of_zipWith_xor_zero :
    ∀ (x y : Bytes), x.length = y.length →
      (∀ a ∈ List.zipWith (fun a b => a ^^^ b) x y, a = 0) → x = y
  | [], [], _, _ => rfl
  | [], _ :: _, h, _ => by simp at h
  | _ :: _, [], h, _ => by simp at h
  | a :: x, b :: y, h, hz => by
      have hab : a ^^^ b = 0 := hz _ (by simp [List.zipWith])
      have hxy : x = y := by
        refine eq_of_zipWith_xor_zero x y (by simpa using h) fun c hc => ?_
        exact hz c (by simp [List.zipWith, hc])
      rw [Nat.xor_eq_zero.mp hab, hxy]

theorem constantTimeCompare_eq_one_iff (x y : Bytes) :
    constantTimeCompare x y = 1 ↔ x = y := by
  unfold constantTimeCompare
  by_cases hlen : x.length = y.length
  · simp only [hlen, if_true]
    by_cases hz : (List.zipWith (fun a b => a ^^^ b) x y).foldl (fun a b => a ||| b) 0 = 0
    · simp only [hz, if_true, true_iff]
      exact eq_of_zipWith_xor_zero x y hlen ((foldl_lor_eq_zero _ _).mp hz).2
    · simp only [hz, if_false]
      constructor
      · intro h
        exact absurd h (by norm_num)
      · rintro rfl
        exact absurd ((foldl_lor_eq_zero _ _).mpr ⟨rfl, by simp [Nat.xor_self]⟩) hz
  · simp only [hlen, if_false]
    constructor
    · intro h
      exact absurd h (by norm_num)
    · rintro rfl
      exact absurd rfl hlen

theorem hmacEqual_iff (x y : Bytes) : hmacEqual x y = true ↔ x = y := by
  rw [hmacEqual, beq_iff_eq, constantTimeCompare_eq_one_iff]

/-! ### Lemmas: Go-map lookup after assignments -/

theorem jlookup_cons (k0 k : Bytes) (v0 : JValue) (t : JObj) :
    jlookup ((k0, v0) :: t) k = if k0 = k then some v0 else jlookup t k := by
  by_cases h : k0 = k <;> simp [jlookup, List.find?, h]

theorem jlookup_upsert (m : JObj) (k k' : Bytes) (v : JValue) :
    jlookup (upsert m k v) k' = if k = k' then some v else jlookup m k' := by
  induction m with
  | nil => simp [upsert, jlookup_cons, jlookup]
  | cons p t ih =>
      obtain ⟨k0, v0⟩ := p
      by_cases h0 : k0 = k
      · subst h0
        simp only [upsert, if_pos rfl]
        by_cases h : k0 = k' <;> simp [jlookup_cons, h]
      · simp only [upsert, if_neg h0]
        rw [jlookup_cons, jlookup_cons, ih]
        by_cases h : k0 = k'
        · subst h
          rw [if_pos rfl, if_neg (fun hk : k = k0 => h0 hk.symm), if_pos rfl]
        · rw [if_neg h, if_neg h]

theorem jlookup_foldl_upsert_of_not_mem (e : JObj) (base : JObj) (k : Bytes)
    (hk : ∀ p ∈ e, p.1 ≠ k) :
    jlookup (e.foldl (fun r kv => upsert r kv.1 kv.2) base) k = jlookup base k := by
  induction e generalizing base with
  | nil => rfl
  | cons p t ih =>
      rw [List.foldl_cons, ih _ fun p hp => hk p (List.mem_cons_of_mem _ hp),
        jlookup_upsert, if_neg (hk p (List.mem_cons_self p t))]

theorem jlookup_foldl_upsert_of_mem (e : JObj) (base : JObj) (k : Bytes) (v : JValue)
    (hnd : e.Pairwise (fun a b => a.1 ≠ b.1)) (hmem : (k, v) ∈ e) :
    jlookup (e.foldl (fun r kv => upsert r kv.1 kv.2) base) k = some v := by
  induction e generalizing base with
  | nil => cases hmem
  | cons p t ih =>
      rw [List.pairwise_cons] at hnd
      rcases List.mem_cons.mp hmem with heq | hmem'
      · subst heq
        rw [List.foldl_cons,
          jlookup_foldl_upsert_of_not_mem t _ k
            (fun p hp hpk => hnd.1 p hp (hpk ▸ rfl)),
          jlookup_upsert, if_pos rfl]
      · rw [List.foldl_cons]
        exact ih _ hnd.2 hmem'

/-! ### Claims -/

/-- C1: `Verify(P, sig)` returns true exactly when `sig` is the (lowercase
    hex) encoding of HMAC-SHA256 of the payload under the handler's secret:
    every other signature string — a single flipped character, or any other
    well-formed hex string of the right length — is rejected. -/
theorem verify_true_iff_correct_signature (h : Handler) (payload signature : Bytes) :
    h.Verify payload signature = true ↔
      signature = hexEncode (hmacSha256 h.secret payload) := by
  rw [Handler.Verify, hmacEqual_iff, eq_comm]

theorem parse_ne_invalidSignature (h : Handler) (p : Bytes) :
    h.Parse p ≠ Except.error .invalidSignature := by
  rw [Handler.Parse]
  rcases decodeJSON p with _ | v
  · simp
  · cases v <;> simp

/-- C2: `VerifyAndParse` fails with `InvalidSignature` — and with only that
    error — exactly when `Verify` is false; when `Verify` is true its result
    is exactly that of `Parse`, so an authenticated-but-malformed payload
    yields the distinct `MalformedPayload` failure. -/
theorem verifyAndParse_signature_gate (h : Handler) (payload signature : Bytes) :
    (h.VerifyAndParse payload signature = .error .invalidSignature ↔
        h.Verify payload signature = false) ∧
    (h.Verify payload signature = true →
        h.VerifyAndParse payload signature = h.Parse payload) := by
  rw [Handler.VerifyAndParse]
  rcases hv : h.Verify payload signature with _ | _
  · simp [hv]
  · simp [hv, parse_ne_invalidSignature h payload]

/-- C3: bytes that are not valid JSON fail with `MalformedPayload` (the
    spec's `"not json"` example included); a decoded JSON object always
    parses successfully, with absent optional numeric fields unset, absent
    string fields empty, and `isFreespin` defaulting to false. -/
theorem parse_malformed_and_defaults (h : Handler) (bs : Bytes) (m : JObj) :
    (decodeJSON bs = none → h.Parse bs = .error .malformedPayload) ∧
    (decodeJSON bs = some (.obj m) →
      h.Parse bs = .ok (buildPayload m) ∧
      (jlookup m (ascii "type") = none → (buildPayload m).type = []) ∧
      (jlookup m (ascii "player_id") = none → (buildPayload m).playerID = []) ∧
      (jlookup m (ascii "currency") = none → (buildPayload m).currency = []) ∧
      (jlookup m (ascii "timestamp") = none → (buildPayload m).timestamp = []) ∧
      (jlookup m (ascii "game_type") = none → (buildPayload m).gameType = []) ∧
      (jlookup m (ascii "session_id") = none → (buildPayload m).sessionID = []) ∧
      (jlookup m (ascii "round_id") = none → (buildPayload m).roundID = []) ∧
      (jlookup m (ascii "reward_type") = none → (buildPayload m).rewardType = []) ∧
      (jlookup m (ascii "reward_title") = none → (buildPayload m).rewardTitle = []) ∧
      (jlookup m (ascii "game_id") = none → (buildPayload m).gameID = none) ∧
      (jlookup m (ascii "transaction_id") = none → (buildPayload m).transactionID = none) ∧
      (jlookup m (ascii "amount") = none → (buildPayload m).amount = none) ∧
      (jlookup m (ascii "freespin_total") = none → (buildPayload m).freespinTotal = none) ∧
      (jlookup m (ascii "freespins_remaining") = none →
        jlookup m (ascii "freespin_left") = none →
        (buildPayload m).freespinsRemaining = none) ∧
      (jlookup m (ascii "freespin_round_number") = none →
        (buildPayload m).freespinRoundNumber = none) ∧
      (jlookup m (ascii "freespin_total_winnings") = none →
        (buildPayload m).freespinTotalWinnings = none) ∧
      (jlookup m (ascii "is_freespin_round") = none →
        jlookup m (ascii "is_freespin") = none →
        (buildPayload m).isFreespin = false)) ∧
    h.Parse (ascii "not json") = .error .malformedPayload := by
  refine ⟨fun hd => ?_, fun hd => ?_, by rfl⟩
  · rw [Handler.Parse, hd]
  · rw [Handler.Parse, hd]
    exact ⟨rfl,
      fun hk => by simp [buildPayload, getString, hk],
      fun hk => by simp [buildPayload, getString, hk],
      fun hk => by simp [buildPayload, getString, hk],
      fun hk => by simp [buildPayload, getString, hk],
      fun hk => by simp [buildPayload, getString, hk],
      fun hk => by simp [buildPayload, getString, hk],
      fun hk => by simp [buildPayload, getString, hk],
      fun hk => by simp [buildPayload, getString, hk],
      fun hk => by simp [buildPayload, getString, hk],
      fun hk => by simp [buildPayload, getNum, hk],
      fun hk => by simp [buildPayload, getNum, hk],
      fun hk => by simp [buildPayload, getNum, hk],
      fun hk => by simp [buildPayload, getNum, hk],
      fun hk hk2 => by simp [buildPayload, getNum, hk, hk2],
      fun hk => by simp [buildPayload, getNum, hk],
      fun hk => by simp [buildPayload, getNum, hk],
      fun hk hk2 => by simp [buildPayload, getBool, hk, hk2]⟩

/-- C4 counterexample: in `{"freespin_id":"","bonus_id":"x"}` the primary
    key `freespin_id` is present (with the empty string), yet `Parse`
    resolves `freespinID` from the fallback key `bonus_id` — the primary does
    not win merely by being present. -/
theorem freespin_alias_fallback_despite_primary :
    ((NewHandler []).Parse
          (ascii "\x7b\"freespin_id\":\"\",\"bonus_id\":\"x\"\x7d")).toOption.map
        (fun p => (p.freespinID, jlookup p.raw (ascii "freespin_id"))) =
      some (ascii "x", some (.str [])) := by
  rfl

/-- C4 (amended): each aliased field is resolved from its primary key first;
    the fallback key is consulted exactly when the primary is absent or
    unusable — not a boolean for `isFreespin`, not a number for
    `freespinsRemaining`, and (for the string-valued `freespinID`) absent,
    non-string or the empty string.  A usable primary wins even when the
    fallback is also present; the spec's two concrete examples hold. -/
theorem parse_alias_precedence (m : JObj) (b : Bool) (s : Bytes) (q : ℚ) :
    (jlookup m (ascii "is_freespin_round") = some (.bool b) →
      (buildPayload m).isFreespin = b) ∧
    (getBool m (ascii "is_freespin_round") = none →
      jlookup m (ascii "is_freespin") = some (.bool b) →
      (buildPayload m).isFreespin = b) ∧
    (jlookup m (ascii "freespin_id") = some (.str s) → s ≠ [] →
      (buildPayload m).freespinID = s) ∧
    (getString m (ascii "freespin_id") = [] →
      jlookup m (ascii "bonus_id") = some (.str s) → s ≠ [] →
      (buildPayload m).freespinID = s) ∧
    (jlookup m (ascii "freespins_remaining") = some (.num q) →
      (buildPayload m).freespinsRemaining = some (goInt q)) ∧
    (getNum m (ascii "freespins_remaining") = none →
      jlookup m (ascii "freespin_left") = some (.num q) →
      (buildPayload m).freespinsRemaining = some (goInt q)) ∧
    ((NewHandler []).Parse
          (ascii "\x7b\"is_freespin_round\": true, \"is_freespin\": false\x7d")).toOption.map
        (fun p => p.isFreespin) = some true ∧
    ((NewHandler []).Parse (ascii "\x7b\"is_freespin\": true\x7d")).toOption.map
        (fun p => p.isFreespin) = some true := by
  refine ⟨fun h1 => ?_, fun h1 h2 => ?_, fun h1 h2 => ?_, fun h1 h2 h3 => ?_,
    fun h1 => ?_, fun h1 h2 => ?_, by rfl, by rfl⟩
  · simp [buildPayload, getBool, h1]
  · simp only [getBool] at h1
    simp [buildPayload, getBool, h1, h2]
  · simp [buildPayload, getString, h1, h2]
  · simp only [getString] at h1
    simp [buildPayload, getString, h1, h2, h3]
  · simp [buildPayload, getNum, h1]
  · simp only [getNum] at h1
    simp [buildPayload, getNum, h1, h2]

/-- C6: `GetAmountInDollars` is the minor-units amount divided by 100 when
    the amount is set, unset when it is unset; the event parsed from
    `{"amount": 1000}` has `GetAmountInDollars` equal to 10. -/
theorem getAmountInDollars_spec (p : Payload) (a : Int) :
    (p.amount = some a → p.GetAmountInDollars = some ((a : ℚ) / 100)) ∧
    (p.amount = none → p.GetAmountInDollars = none) ∧
    ((NewHandler []).Parse (ascii "\x7b\"amount\": 1000\x7d")).toOption.map
        (fun q => q.GetAmountInDollars) = some (some 10) := by
  refine ⟨fun h => by simp [Payload.GetAmountInDollars, h],
    fun h => by simp [Payload.GetAmountInDollars, h], ?_⟩
  with_unfolding_all decide

/-- C7: each classification helper is an equality test of the event type
    against its literal tag; for `type: "bet"` only `IsBet` holds, and over
    the six canonical tags exactly one classifier is true. -/
theorem classifiers_spec (p : Payload) :
    (p.IsBet = true ↔ p.type = TypeBet) ∧
    (p.IsWin = true ↔ p.type = TypeWin) ∧
    (p.IsRollback = true ↔ p.type = TypeRollback) ∧
    (p.IsReward = true ↔ p.type = TypeReward) ∧
    (p.IsAuthenticate = true ↔ p.type = TypeAuthenticate) ∧
    (p.IsBalanceCheck = true ↔ p.type = TypeBalanceCheck) ∧
    (p.type = TypeBet →
      p.IsBet = true ∧ p.IsWin = false ∧ p.IsRollback = false ∧
      p.IsReward = false ∧ p.IsAuthenticate = false ∧ p.IsBalanceCheck = false) ∧
    (p.type ∈ [TypeAuthenticate, TypeBalanceCheck, TypeBet, TypeWin,
               TypeRollback, TypeReward] →
      ([p.IsBet, p.IsWin, p.IsRollback, p.IsReward, p.IsAuthenticate,
        p.IsBalanceCheck].count true = 1)) := by
  refine ⟨by simp [Payload.IsBet], by simp [Payload.IsWin], by simp [Payload.IsRollback],
    by simp [Payload.IsReward], by simp [Payload.IsAuthenticate],
    by simp [Payload.IsBalanceCheck], fun h => ?_, fun h => ?_⟩
  · simp +decide [Payload.IsBet, Payload.IsWin, Payload.IsRollback, Payload.IsReward,
      Payload.IsAuthenticate, Payload.IsBalanceCheck, h, TypeBet, TypeWin, TypeRollback,
      TypeReward, TypeAuthenticate, TypeBalanceCheck, ascii]
  · simp only [List.mem_cons, List.not_mem_nil, or_false] at h
    rcases h with h | h | h | h | h | h
    all_goals
      simp +decide [Payload.IsBet, Payload.IsWin, Payload.IsRollback, Payload.IsReward,
        Payload.IsAuthenticate, Payload.IsBalanceCheck, h, TypeBet, TypeWin, TypeRollback,
        TypeReward, TypeAuthenticate, TypeBalanceCheck, ascii, List.count]

/-- C5 counterexample: `SuccessResponse` does not round the balance —
    at 0.017 major units it stores 1 (truncation of 1.7) though rounding
    gives 2 — and an extra entry keyed `"status"` does override the status
    entry instead of being purely additive. -/
theorem successResponse_round_and_override_fail :
    jlookup ((NewHandler []).SuccessResponse (17 / 1000) []) (ascii "balance") =
        some (.num 1) ∧
    specRound ((17 / 1000 : ℚ) * 100) = 2 ∧
    jlookup ((NewHandler []).SuccessResponse 1 [(ascii "status", .str (ascii "x"))])
        (ascii "status") = some (.str (ascii "x")) := by
  refine ⟨by with_unfolding_all rfl, ?_, by with_unfolding_all rfl⟩
  with_unfolding_all decide

/-- C5 (amended): `SuccessResponse(b, e)` maps `"status"` to `"success"`
    and `"balance"` to `int(b*100)` (truncation toward zero) whenever `e`
    itself carries no entry under that key; every entry of a duplicate-free
    `e` appears in the response (entries of `e` override the base map on a
    key collision rather than being discarded). -/
theorem successResponse_fields (h : Handler) (b : ℚ) (e : JObj) (k : Bytes) (v : JValue) :
    ((∀ p ∈ e, p.1 ≠ ascii "status") →
      jlookup (h.SuccessResponse b e) (ascii "status") =
        some (.str (ascii "success"))) ∧
    ((∀ p ∈ e, p.1 ≠ ascii "balance") →
      jlookup (h.SuccessResponse b e) (ascii "balance") =
        some (.num (goInt (b * 100) : ℚ))) ∧
    (e.Pairwise (fun a b => a.1 ≠ b.1) → (k, v) ∈ e →
      jlookup (h.SuccessResponse b e) k = some v) := by
  refine ⟨fun hs => ?_, fun hb => ?_, fun hnd hmem => ?_⟩
  · rw [Handler.SuccessResponse, jlookup_foldl_upsert_of_not_mem _ _ _ hs,
      jlookup_cons, if_pos rfl]
  · rw [Handler.SuccessResponse, jlookup_foldl_upsert_of_not_mem _ _ _ hb,
      jlookup_cons, if_neg (by decide), jlookup_cons, if_pos rfl]
  · exact jlookup_foldl_upsert_of_mem _ _ _ _ hnd hmem

/-- C8: `SuccessResponse(100.50, nil)` is exactly the status/balance map
    with balance 10050; `InsufficientFundsResponse(b)` is
    `ErrorResponse("INSUFFICIENT_FUNDS", "Insufficient funds")` with an
    added balance entry in minor units, so at 50.25 it maps status to
    error, error_code to INSUFFICIENT_FUNDS and balance to 5025. -/
theorem responses_concrete (h : Handler) (b : ℚ) :
    h.SuccessResponse (201 / 2) [] =
      [(ascii "status", .str (ascii "success")),
       (ascii "balance", .num 10050)] ∧
    h.InsufficientFundsResponse b =
      upsert (h.ErrorResponse (ascii "INSUFFICIENT_FUNDS") (ascii "Insufficient funds"))
        (ascii "balance") (.num (goInt (b * 100) : ℚ)) ∧
    jlookup (h.InsufficientFundsResponse (201 / 4)) (ascii "status") =
      some (.str (ascii "error")) ∧
    jlookup (h.InsufficientFundsResponse (201 / 4)) (ascii "error_code") =
      some (.str (ascii "INSUFFICIENT_FUNDS")) ∧
    jlookup (h.InsufficientFundsResponse (201 / 4)) (ascii "balance") =
      some (.num 5025) := by
  refine ⟨?_, rfl, ?_, ?_, ?_⟩ <;> with_unfolding_all rfl

/-- C9: integer-typed fields arriving as JSON numbers are converted with
    `goInt`, which truncates toward zero — the integer lies between the
    value and zero, within distance one — and never rounds to nearest:
    10.7 becomes 10 (rounding gives 11) and -10.7 becomes -10. -/
theorem parse_numbers_truncate (m : JObj) (q : ℚ) :
    (jlookup m (ascii "game_id") = some (.num q) →
      (buildPayload m).gameID = some (goInt q)) ∧
    (jlookup m (ascii "transaction_id") = some (.num q) →
      (buildPayload m).transactionID = some (goInt q)) ∧
    (jlookup m (ascii "amount") = some (.num q) →
      (buildPayload m).amount = some (goInt q)) ∧
    (jlookup m (ascii "freespin_total") = some (.num q) →
      (buildPayload m).freespinTotal = some (goInt q)) ∧
    (jlookup m (ascii "freespin_round_number") = some (.num q) →
      (buildPayload m).freespinRoundNumber = some (goInt q)) ∧
    (jlookup m (ascii "freespins_remaining") = some (.num q) →
      (buildPayload m).freespinsRemaining = some (goInt q)) ∧
    (0 ≤ q → (goInt q : ℚ) ≤ q ∧ q < (goInt q : ℚ) + 1) ∧
    (q < 0 → q ≤ (goInt q : ℚ) ∧ (goInt q : ℚ) - 1 < q) ∧
    (buildPayload [(ascii "amount", .num (107 / 10))]).amount = some 10 ∧
    (buildPayload [(ascii "amount", .num (-(107 / 10)))]).amount = some (-10) ∧
    specRound (107 / 10) = 11 := by
  refine ⟨fun h1 => by simp [buildPayload, getNum, h1],
    fun h1 => by simp [buildPayload, getNum, h1],
    fun h1 => by simp [buildPayload, getNum, h1],
    fun h1 => by simp [buildPayload, getNum, h1],
    fun h1 => by simp [buildPayload, getNum, h1],
    fun h1 => by simp [buildPayload, getNum, h1],
    fun hq => ?_, fun hq => ?_,
    by with_unfolding_all decide, by with_unfolding_all decide,
    by with_unfolding_all decide⟩
  · rw [goInt, if_pos hq]
    exact ⟨Int.floor_le q, Int.lt_floor_add_one q⟩
  · rw [goInt, if_neg (not_le.mpr hq)]
    exact ⟨Int.le_ceil q, by linarith [Int.ceil_lt_add_one q]⟩

/-- C10: a modeled field present with a value of the wrong JSON type is
    left at its default — empty string, unset option, false — while `Parse`
    still succeeds, and the wrongly-typed value stays readable through the
    retained raw mapping. -/
theorem parse_wrong_type_defaults (h : Handler) (bs : Bytes) (m : JObj) (q : ℚ)
    (s k : Bytes) (bl : Bool) :
    (jlookup m (ascii "player_id") = some (.num q) →
      (buildPayload m).playerID = []) ∧
    (jlookup m (ascii "player_id") = some (.bool bl) →
      (buildPayload m).playerID = []) ∧
    (jlookup m (ascii "amount") = some (.str s) →
      (buildPayload m).amount = none) ∧
    (jlookup m (ascii "amount") = some (.bool bl) →
      (buildPayload m).amount = none) ∧
    (jlookup m (ascii "game_id") = some (.str s) →
      (buildPayload m).gameID = none) ∧
    (jlookup m (ascii "transaction_id") = some (.bool bl) →
      (buildPayload m).transactionID = none) ∧
    (jlookup m (ascii "is_freespin_round") = some (.num q) →
      jlookup m (ascii "is_freespin") = none →
      (buildPayload m).isFreespin = false) ∧
    (buildPayload m).raw = m ∧
    (buildPayload m).Get k = jlookup m k ∧
    (decodeJSON bs = some (.obj m) → h.Parse bs = .ok (buildPayload m)) ∧
    ((NewHandler []).Parse
          (ascii "\x7b\"player_id\": 5, \"amount\": \"x\"\x7d")).toOption.map
        (fun p => (p.playerID, p.amount, p.Get (ascii "player_id"))) =
      some ([], none, some (.num 5)) := by
  refine ⟨fun h1 => by simp [buildPayload, getString, h1],
    fun h1 => by simp [buildPayload, getString, h1],
    fun h1 => by simp [buildPayload, getNum, h1],
    fun h1 => by simp [buildPayload, getNum, h1],
    fun h1 => by simp [buildPayload, getNum, h1],
    fun h1 => by simp [buildPayload, getNum, h1],
    fun h1 h2 => by simp [buildPayload, getBool, h1, h2],
    rfl, rfl, fun hd => by rw [Handler.Parse, hd],
    by with_unfolding_all rfl⟩

end Webhooks
